import Mathlib

/-!
Verification of the timeline segment model, drag and resize geometry,
AutoCut synthesis and the segment chained playback scheduler of the
video editor in src/src/main.tsx.  Numbers (seconds, pixels) are modelled
as rationals; JavaScript state updates become pure functions from old
state to new state.  Fresh ids produced by createId are abstracted as
parameters, since they are random opaque tokens.
-/

/-- Media asset (video or audio have the same shape in the source):
id, name, object URL and an optional duration that is filled in once the
metadata loaded notification arrives. -/
structure Asset where
  id : String
  name : String
  url : String
  duration : Option ℚ
deriving Repr, DecidableEq

/-- Timeline segment (VideoSegment and AudioSegment are structurally
identical in the source). -/
structure Segment where
  id : String
  assetId : String
  sourceStart : ℚ
  duration : ℚ
  timelineStart : ℚ
deriving Repr, DecidableEq

/-- Fixed scale constant of the geometry: 80 pixels per second. -/
def PIXELS_PER_SECOND : ℚ := 80

/-- Specification formula for a drag: a segment with initial
timelineStart t0 dragged by deltaPx pixels lands at
max 0 (t0 + deltaPx / 80).  Stated from the spec wording and compared
against the onMouseMove code path below. -/
def dragSpec (t0 deltaPx : ℚ) : ℚ := max 0 (t0 + deltaPx / 80)

/-- addVideoToTimeline: creates a segment for the asset with
sourceStart 0, timelineStart 0 and duration equal to the asset duration
when known, 10 otherwise, appends it to the video segments and selects
its id.  The fresh id from createId is the parameter newId. -/
def addVideoToTimeline (asset : Asset) (newId : String)
    (videoSegments : List Segment) : List Segment × Option String :=
  let defaultDuration := asset.duration.getD 10
  let segment : Segment :=
    { id := newId, assetId := asset.id, sourceStart := 0,
      duration := defaultDuration, timelineStart := 0 }
  (videoSegments ++ [segment], some newId)

/-- addAudioToTimeline: identical to the video variant but on the audio
track state. -/
def addAudioToTimeline (asset : Asset) (newId : String)
    (audioSegments : List Segment) : List Segment × Option String :=
  let defaultDuration := asset.duration.getD 10
  let segment : Segment :=
    { id := newId, assetId := asset.id, sourceStart := 0,
      duration := defaultDuration, timelineStart := 0 }
  (audioSegments ++ [segment], some segment.id)

/-- deleteVideoSegment: filters the segment with the given id out of the
video segments and clears the selection when it pointed at that id. -/
def deleteVideoSegment (id : String) (videoSegments : List Segment)
    (selectedVideoSegmentId : Option String) : List Segment × Option String :=
  (videoSegments.filter (fun s => s.id ≠ id),
   if selectedVideoSegmentId = some id then none else selectedVideoSegmentId)

/-- deleteAudioSegment: identical to the video variant on the audio track. -/
def deleteAudioSegment (id : String) (audioSegments : List Segment)
    (selectedAudioSegmentId : Option String) : List Segment × Option String :=
  (audioSegments.filter (fun s => s.id ≠ id),
   if selectedAudioSegmentId = some id then none else selectedAudioSegmentId)

/-- Highlight range handed back by the (stubbed) AutoCut backend.  The
source field names are start and end; end is a reserved word in Lean so
it is written with guillemets. -/
structure Highlight where
  start : ℚ
  «end» : ℚ
deriving Repr, DecidableEq

/-- HIGHLIGHTS: the hardcoded stub response of the AutoCut backend used
for every asset in the source. -/
def HIGHLIGHTS : List Highlight :=
  [⟨2, 4⟩, ⟨6, 7⟩, ⟨9, 10⟩]

/-- handleAutoCutForAsset, generalised over the highlight list it maps
(the source inlines the constant HIGHLIGHTS): each range becomes a
segment with sourceStart = start, duration = end - start and
timelineStart = 0; when no segment was produced the function returns
without touching the state; otherwise the new segments are appended and
the first one is selected.  freshIds abstracts the successive createId
calls. -/
def handleAutoCutForAsset (asset : Asset) (highlights : List Highlight)
    (freshIds : ℕ → String) (videoSegments : List Segment)
    (selectedVideoSegmentId : Option String) : List Segment × Option String :=
  let newSegments : List Segment := highlights.mapIdx (fun i h =>
    { id := freshIds i, assetId := asset.id, sourceStart := h.start,
      duration := h.«end» - h.start, timelineStart := 0 })
  match newSegments with
  | [] => (videoSegments, selectedVideoSegmentId)
  | first :: _ => (videoSegments ++ newSegments, some first.id)

/-- handleAutoCutAll, generalised over the highlight list: applies the
same ranges to every registered video asset, aggregates all created
segments, then performs a single append and a single selection update;
with no assets or no created segments the state is untouched.  freshIds
takes the asset index and the highlight index. -/
def handleAutoCutAll (videoAssets : List Asset) (highlights : List Highlight)
    (freshIds : ℕ → ℕ → String) (videoSegments : List Segment)
    (selectedVideoSegmentId : Option String) : List Segment × Option String :=
  if videoAssets.length = 0 then (videoSegments, selectedVideoSegmentId)
  else
    let allNewSegments : List Segment :=
      (videoAssets.mapIdx (fun ai asset => highlights.mapIdx (fun hi h =>
        ({ id := freshIds ai hi, assetId := asset.id, sourceStart := h.start,
           duration := h.«end» - h.start, timelineStart := 0 } : Segment)))).flatten
    match allNewSegments with
    | [] => (videoSegments, selectedVideoSegmentId)
    | first :: _ => (videoSegments ++ allNewSegments, some first.id)

/-- Transient drag gesture state captured at mousedown: dragged segment
id, the initial pointer X coordinate and the initial timelineStart of
the segment (called initialOffset in the source). -/
structure DragState where
  id : String
  initialX : ℚ
  initialOffset : ℚ
deriving Repr, DecidableEq

/-- Edge grabbed by a resize gesture. -/
inductive Edge where
  | left
  | right
deriving Repr, DecidableEq

/-- Transient resize gesture state captured at mousedown on a handle. -/
structure ResizeState where
  id : String
  edge : Edge
  initialX : ℚ
  initialSourceStart : ℚ
  initialDuration : ℚ
deriving Repr, DecidableEq

/-- Update applied to one segment by the drag branch of onMouseMove:
the segment matching the dragged id gets timelineStart set to
max 0 updated, every other segment is returned untouched. -/
def dragSegment (ds : DragState) (updated : ℚ) (seg : Segment) : Segment :=
  if seg.id = ds.id then { seg with timelineStart := max 0 updated } else seg

/-- onMouseMove, drag branch: computes the pixel delta from the captured
pointer X, converts it to seconds at PIXELS_PER_SECOND and maps the
per-segment drag update over both track states (the source applies the
same id match to the video and the audio store). -/
def onMouseMove (ds : DragState) (clientX : ℚ)
    (videoSegments audioSegments : List Segment) :
    List Segment × List Segment :=
  let deltaPx := clientX - ds.initialX
  let deltaSec := deltaPx / PIXELS_PER_SECOND
  let updated := ds.initialOffset + deltaSec
  (videoSegments.map (dragSegment ds updated),
   audioSegments.map (dragSegment ds updated))

/-- Duration of the asset referenced by a segment, a missing asset or an
asset without metadata both yielding none (the source turns none into
Infinity, which the clamp below treats as no upper bound). -/
def assetDurationOf (assets : List Asset) (seg : Segment) : Option ℚ :=
  (assets.find? (fun a => a.id == seg.assetId)).bind (fun a => a.duration)

/-- Update applied to one segment by onResize: a segment not matching
the resized id is returned untouched; otherwise the left edge moves
sourceStart to max 0 (initialSourceStart + deltaSecs) and shortens the
duration by deltaSecs, the right edge keeps sourceStart and lengthens
the duration by deltaSecs; the duration is then clamped to
max 0.1 (min newDuration (assetDuration - newStart)), the min being
skipped when the asset duration is unknown (Infinity in the source). -/
def resizeSegment (rs : ResizeState) (assets : List Asset) (deltaSecs : ℚ)
    (seg : Segment) : Segment :=
  if seg.id ≠ rs.id then seg
  else
    let newStart : ℚ :=
      match rs.edge with
      | Edge.left => max 0 (rs.initialSourceStart + deltaSecs)
      | Edge.right => rs.initialSourceStart
    let newDuration0 : ℚ :=
      match rs.edge with
      | Edge.left => rs.initialDuration - deltaSecs
      | Edge.right => rs.initialDuration + deltaSecs
    let newDuration : ℚ :=
      match assetDurationOf assets seg with
      | none => max (1/10) newDuration0
      | some d => max (1/10) (min newDuration0 (d - newStart))
    { seg with sourceStart := newStart, duration := newDuration }

/-- onResize: converts the pixel delta to seconds and maps the
per-segment resize update over the video segments (against the video
assets) and the audio segments (against the audio assets). -/
def onResize (rs : ResizeState) (clientX : ℚ)
    (videoAssets audioAssets : List Asset)
    (videoSegments audioSegments : List Segment) :
    List Segment × List Segment :=
  let deltaPx := clientX - rs.initialX
  let deltaSecs := deltaPx / PIXELS_PER_SECOND
  (videoSegments.map (resizeSegment rs videoAssets deltaSecs),
   audioSegments.map (resizeSegment rs audioAssets deltaSecs))

/-- Stable insertion of a segment into a list sorted ascending by
timelineStart: the new element goes before the first element whose
timelineStart is greater or equal. -/
def insertByStart (x : Segment) : List Segment → List Segment
  | [] => [x]
  | y :: l =>
    if x.timelineStart ≤ y.timelineStart then x :: y :: l
    else y :: insertByStart x l

/-- Model of the JavaScript stable sort with comparator
(a, b) => a.timelineStart - b.timelineStart used throughout the source:
the unique stable ascending reordering by timelineStart, computed here
by stable insertion. -/
def sortByTimelineStart : List Segment → List Segment
  | [] => []
  | x :: l => insertByStart x (sortByTimelineStart l)

/-- Per track scheduler and store state: the segments, the selected
segment id and the isPlaying flag. -/
structure PlayerState where
  videoSegments : List Segment
  selectedVideoSegmentId : Option String
  isPlaying : Bool
deriving Repr, DecidableEq

/-- selectedVideoSegment: the segment whose id equals the current
selection, null when there is no selection or the id dangles. -/
def selectedVideoSegment (st : PlayerState) : Option Segment :=
  st.videoSegments.find? (fun s => some s.id == st.selectedVideoSegmentId)

/-- JavaScript findIndex: index of the first match, -1 when absent. -/
def jsFindIndex (p : Segment → Bool) (l : List Segment) : Int :=
  match l.findIdx? p with
  | some i => (i : Int)
  | none => -1

/-- JavaScript array indexing combined with the ?? null fallback:
out-of-range and negative indices give none. -/
def jsIndex (l : List Segment) (i : Int) : Option Segment :=
  if i < 0 then none else l[i.toNat]?

/-- getNextVideoSegment: orders the segments by timelineStart, finds the
selected segment there and returns the element one past it, none when
nothing is selected or the selected segment is last. -/
def getNextVideoSegment (st : PlayerState) : Option Segment :=
  match selectedVideoSegment st with
  | none => none
  | some sel =>
    let sorted := sortByTimelineStart st.videoSegments
    let idx := jsFindIndex (fun s => s.id == sel.id) sorted
    jsIndex sorted (idx + 1)

/-- selectedVideoAsset: the asset referenced by the selected segment,
none when no segment is selected or the asset is missing from the
registry.  The preview video element is rendered exactly when this is
non-null, so it also decides whether videoRef.current holds a live
media element when an event handler runs. -/
def selectedVideoAsset (videoAssets : List Asset) (st : PlayerState) :
    Option Asset :=
  match selectedVideoSegment st with
  | none => none
  | some seg => videoAssets.find? (fun a => a.id == seg.assetId)

/-- togglePlayback: returns immediately when videoRef.current is null,
which is the case exactly when selectedVideoAsset is none, because the
preview video element is mounted only for the selected segment's asset.
Past that guard, from Stopped the selected segment is used as the start
segment (the fallback that would select the first segment of the
timeline ordering is kept from the source but is unreachable, since the
guard already requires a selection) and the state enters Playing; from
Playing the state goes to Stopped and pause is issued.  The Bool result
records whether pause was issued to the media element. -/
def togglePlayback (videoAssets : List Asset) (st : PlayerState) :
    PlayerState × Bool :=
  match selectedVideoAsset videoAssets st with
  | none => (st, false)
  | some _ =>
    if st.isPlaying = false then
      match selectedVideoSegment st with
      | some _ => ({ st with isPlaying := true }, false)
      | none =>
        match sortByTimelineStart st.videoSegments with
        | [] => (st, false)
        | first :: _ =>
          ({ st with selectedVideoSegmentId := some first.id, isPlaying := true },
           false)
    else
      ({ st with isPlaying := false }, true)

/-- onTimeUpdate: progress notification carrying the media element
currentTime.  With no selected segment the listener is not installed;
while not Playing the handler returns early; otherwise, once currentTime
reaches sourceStart + duration of the selected segment, the next segment
in timeline order is selected when it exists, else the state becomes
Stopped and pause is issued (the Bool result). -/
def onTimeUpdate (st : PlayerState) (currentTime : ℚ) : PlayerState × Bool :=
  match selectedVideoSegment st with
  | none => (st, false)
  | some sel =>
    let stopAt := sel.sourceStart + sel.duration
    if st.isPlaying = false then (st, false)
    else if stopAt ≤ currentTime then
      match getNextVideoSegment st with
      | some next => ({ st with selectedVideoSegmentId := some next.id }, false)
      | none => ({ st with isPlaying := false }, true)
    else (st, false)

/-- Arithmetic core of the resize clamp: when the asset duration d
leaves headroom of at least the 0.1 floor above the new source start s,
the clamped duration keeps the segment end within d. -/
theorem add_clamp_le (s b d : ℚ) (h : 1/10 ≤ d - s) :
    s + max (1/10) (min b (d - s)) ≤ d := by
  have h2 : max (1/10) (min b (d - s)) ≤ d - s := max_le h (min_le_right _ _)
  linarith

/-- C1 counterexample: from a perfectly legal segment (sourceStart 0,
duration 10, asset duration known to be 10), a left edge resize of
796 pixels (9.95 seconds) drives the clamped source start to 9.95 while
the 0.1 duration floor beats the remaining 0.05 headroom, so the
resized segment ends at 10.05, past the asset duration: the claimed
post-resize bound sourceStart + duration ≤ asset.duration is false. -/
theorem resize_bounds_counterexample :
    assetDurationOf [⟨"a1", "clip", "u", some 10⟩] ⟨"s1", "a1", 0, 10, 0⟩ =
      some 10 ∧
    ¬ (∀ s ∈ (onResize ⟨"s1", Edge.left, 0, 0, 10⟩ 796
        [⟨"a1", "clip", "u", some 10⟩] [] [⟨"s1", "a1", 0, 10, 0⟩] []).1,
        s.sourceStart + s.duration ≤ 10) := by
  constructor
  · norm_num [assetDurationOf]
  · norm_num [onResize, resizeSegment, assetDurationOf, PIXELS_PER_SECOND]

/-- C1 amended: after any resize write, the matching segment has
duration ≥ 0.1 and, provided the captured initial sourceStart was
nonnegative, sourceStart ≥ 0; and when the asset duration d is known
and the clamped source start leaves headroom of at least the 0.1 floor
(1/10 ≤ d - newSourceStart), also sourceStart + duration ≤ d.  Without
that headroom the 0.1 floor wins and the segment may overshoot the
asset duration, as the counterexample shows. -/
theorem resize_result_bounds (rs : ResizeState) (assets : List Asset)
    (deltaSecs : ℚ) (seg : Segment)
    (hid : seg.id = rs.id) (h0 : 0 ≤ rs.initialSourceStart) :
    1/10 ≤ (resizeSegment rs assets deltaSecs seg).duration ∧
    0 ≤ (resizeSegment rs assets deltaSecs seg).sourceStart ∧
    (∀ d : ℚ, assetDurationOf assets seg = some d →
      1/10 ≤ d - (resizeSegment rs assets deltaSecs seg).sourceStart →
      (resizeSegment rs assets deltaSecs seg).sourceStart +
        (resizeSegment rs assets deltaSecs seg).duration ≤ d) := by
  refine ⟨?_, ?_, ?_⟩
  · cases hE : rs.edge <;> cases hA : assetDurationOf assets seg <;>
      simp only [resizeSegment, hid, ne_eq, not_true_eq_false, if_false,
        hE, hA] <;>
      exact le_max_left _ _
  · cases hE : rs.edge <;>
      simp only [resizeSegment, hid, ne_eq, not_true_eq_false, if_false, hE]
    · exact le_max_of_le_left (le_refl 0)
    · exact h0
  · intro d hd hroom
    cases hE : rs.edge <;>
      simp only [resizeSegment, hid, ne_eq, not_true_eq_false, if_false,
        hE, hd] at hroom ⊢ <;>
      exact add_clamp_le _ _ _ hroom

/-- C1 amended witness: evaluation of the bounds at a concrete left
edge resize of one second on a segment of asset duration 10. -/
theorem resize_result_bounds_witness :
    1/10 ≤ (resizeSegment ⟨"s1", Edge.left, 0, 2, 5⟩
      [⟨"a1", "clip", "u", some 10⟩] 1 ⟨"s1", "a1", 2, 5, 0⟩).duration ∧
    0 ≤ (resizeSegment ⟨"s1", Edge.left, 0, 2, 5⟩
      [⟨"a1", "clip", "u", some 10⟩] 1 ⟨"s1", "a1", 2, 5, 0⟩).sourceStart ∧
    (resizeSegment ⟨"s1", Edge.left, 0, 2, 5⟩
      [⟨"a1", "clip", "u", some 10⟩] 1 ⟨"s1", "a1", 2, 5, 0⟩).sourceStart +
      (resizeSegment ⟨"s1", Edge.left, 0, 2, 5⟩
      [⟨"a1", "clip", "u", some 10⟩] 1 ⟨"s1", "a1", 2, 5, 0⟩).duration ≤ 10 := by
  have h := resize_result_bounds ⟨"s1", Edge.left, 0, 2, 5⟩
    [⟨"a1", "clip", "u", some 10⟩] 1 ⟨"s1", "a1", 2, 5, 0⟩ rfl (by norm_num)
  exact ⟨h.1, h.2.1, h.2.2 10 (by norm_num [assetDurationOf])
    (by norm_num [resizeSegment, assetDurationOf])⟩

/-- C2: a left edge resize whose clamps all stay disengaged (the new
source start stays nonnegative, the shrunk duration stays at or above
the 0.1 floor and within the asset headroom) moves sourceStart and
duration in lockstep, so their sum, the segment end point in source
time, is exactly the pre-resize sourceStart + duration. -/
theorem left_resize_preserves_source_end (rs : ResizeState)
    (assets : List Asset) (deltaSecs : ℚ) (seg : Segment)
    (hid : seg.id = rs.id) (hedge : rs.edge = Edge.left)
    (hss : rs.initialSourceStart = seg.sourceStart)
    (hdur : rs.initialDuration = seg.duration)
    (hstart : 0 ≤ rs.initialSourceStart + deltaSecs)
    (hfloor : 1/10 ≤ rs.initialDuration - deltaSecs)
    (hceil : ∀ d : ℚ, assetDurationOf assets seg = some d →
      rs.initialDuration - deltaSecs ≤ d - (rs.initialSourceStart + deltaSecs)) :
    (resizeSegment rs assets deltaSecs seg).sourceStart +
      (resizeSegment rs assets deltaSecs seg).duration =
      seg.sourceStart + seg.duration := by
  have hmax : max 0 (rs.initialSourceStart + deltaSecs) =
      rs.initialSourceStart + deltaSecs := max_eq_right hstart
  cases hA : assetDurationOf assets seg <;>
    simp only [resizeSegment, hid, ne_eq, not_true_eq_false, if_false,
      hedge, hA, hmax]
  · rw [max_eq_right hfloor]
    linarith [hss, hdur]
  case some d =>
    rw [min_eq_left (hceil d hA), max_eq_right hfloor]
    linarith [hss, hdur]

/-- C2 witness: the left edge resize of one second from the C1 witness
configuration leaves the source end point at 2 + 5 = 7. -/
theorem left_resize_preserves_source_end_witness :
    (resizeSegment ⟨"s1", Edge.left, 0, 2, 5⟩
      [⟨"a1", "clip", "u", some 10⟩] 1 ⟨"s1", "a1", 2, 5, 0⟩).sourceStart +
      (resizeSegment ⟨"s1", Edge.left, 0, 2, 5⟩
      [⟨"a1", "clip", "u", some 10⟩] 1 ⟨"s1", "a1", 2, 5, 0⟩).duration =
      (⟨"s1", "a1", 2, 5, 0⟩ : Segment).sourceStart +
      (⟨"s1", "a1", 2, 5, 0⟩ : Segment).duration := by
  exact left_resize_preserves_source_end ⟨"s1", Edge.left, 0, 2, 5⟩
    [⟨"a1", "clip", "u", some 10⟩] 1 ⟨"s1", "a1", 2, 5, 0⟩ rfl rfl rfl rfl
    (by norm_num) (by norm_num)
    (fun d hd => by
      have : d = 10 := by
        rw [show assetDurationOf [⟨"a1", "clip", "u", some 10⟩]
          ⟨"s1", "a1", 2, 5, 0⟩ = some 10 by norm_num [assetDurationOf]] at hd
        injection hd
        simp_all
      rw [this]; norm_num)

/-- C5: for every asset and every add-to-timeline invocation on either
track, the created segment is appended at the end of that track and its
id becomes the selection. -/
theorem add_appends_and_selects (a : Asset) (newId : String)
    (vS aS : List Segment) :
    (∃ seg : Segment, seg.id = newId ∧
      addVideoToTimeline a newId vS = (vS ++ [seg], some seg.id)) ∧
    (∃ seg : Segment, seg.id = newId ∧
      addAudioToTimeline a newId aS = (aS ++ [seg], some seg.id)) := by
  exact ⟨⟨_, rfl, rfl⟩, ⟨_, rfl, rfl⟩⟩

/-- C6: on either track, deleting the selected id nulls the selection,
deleting any other id leaves the selection unchanged, and in both cases
no segment with the deleted id remains in the collection. -/
theorem delete_removes_and_updates_selection (id : String)
    (vS aS : List Segment) (selV selA : Option String) :
    ((selV = some id → (deleteVideoSegment id vS selV).2 = none) ∧
     (selV ≠ some id → (deleteVideoSegment id vS selV).2 = selV) ∧
     (∀ s ∈ (deleteVideoSegment id vS selV).1, s.id ≠ id)) ∧
    ((selA = some id → (deleteAudioSegment id aS selA).2 = none) ∧
     (selA ≠ some id → (deleteAudioSegment id aS selA).2 = selA) ∧
     (∀ s ∈ (deleteAudioSegment id aS selA).1, s.id ≠ id)) := by
  refine ⟨⟨fun h => ?_, fun h => ?_, fun s hs => ?_⟩,
          ⟨fun h => ?_, fun h => ?_, fun s hs => ?_⟩⟩ <;>
    simp_all [deleteVideoSegment, deleteAudioSegment, List.mem_filter]

/-- C6 witness: deleting the selected id "x" clears the video selection
and removes the segment, while deleting "x" on the audio track with
selection "y" keeps the selection. -/
theorem delete_removes_and_updates_selection_witness :
    (deleteVideoSegment "x" [⟨"x", "a", 0, 1, 0⟩] (some "x")).2 = none ∧
    (deleteAudioSegment "x" [⟨"x", "a", 0, 1, 0⟩] (some "y")).2 = some "y" := by
  refine ⟨(delete_removes_and_updates_selection "x" [⟨"x", "a", 0, 1, 0⟩]
    [⟨"x", "a", 0, 1, 0⟩] (some "x") (some "y")).1.1 rfl,
    (delete_removes_and_updates_selection "x" [⟨"x", "a", 0, 1, 0⟩]
    [⟨"x", "a", 0, 1, 0⟩] (some "x") (some "y")).2.2.1 (by decide)⟩

/-- C7: applying AutoCut with the stub highlight list appends exactly
three segments with sourceStart and duration pairs (2,2), (6,1), (9,1),
all at timelineStart 0, and selects the first created segment, the one
with sourceStart 2. -/
theorem autocut_stub_segments (a : Asset) (f : ℕ → String)
    (vS : List Segment) (sel : Option String) :
    handleAutoCutForAsset a HIGHLIGHTS f vS sel =
      (vS ++ [⟨f 0, a.id, 2, 2, 0⟩, ⟨f 1, a.id, 6, 1, 0⟩, ⟨f 2, a.id, 9, 1, 0⟩],
       some (f 0)) := by
  simp [handleAutoCutForAsset, HIGHLIGHTS]
  norm_num

/-- Flattening a per-asset list of empty segment lists gives the empty
list; used for the bulk AutoCut with no highlight ranges. -/
theorem mapIdx_const_nil_flatten (l : List Asset) :
    (List.mapIdx (fun _ _ => ([] : List Segment)) l).flatten = [] := by
  induction l with
  | nil => rfl
  | cons a t ih => simp [List.mapIdx_cons, ih]

/-- C8: AutoCut applied with an empty highlight range list leaves the
video segment collection and the video selection untouched, both in the
per-asset form and in the bulk all-assets form. -/
theorem autocut_empty_ranges_noop (a : Asset) (assets : List Asset)
    (f : ℕ → String) (g : ℕ → ℕ → String)
    (vS : List Segment) (sel : Option String) :
    handleAutoCutForAsset a [] f vS sel = (vS, sel) ∧
    handleAutoCutAll assets [] g vS sel = (vS, sel) := by
  constructor
  · rfl
  · simp [handleAutoCutAll, mapIdx_const_nil_flatten]

/-- C10: adding an asset without known duration to either track creates
the segment with the defaults duration 10, sourceStart 0 and
timelineStart 0; once the duration d is known the created segment has
duration d instead. -/
theorem add_uses_asset_duration_or_default (a : Asset) (newId : String)
    (vS aS : List Segment) :
    (a.duration = none →
      addVideoToTimeline a newId vS =
        (vS ++ [⟨newId, a.id, 0, 10, 0⟩], some newId) ∧
      addAudioToTimeline a newId aS =
        (aS ++ [⟨newId, a.id, 0, 10, 0⟩], some newId)) ∧
    (∀ d : ℚ, a.duration = some d →
      addVideoToTimeline a newId vS =
        (vS ++ [⟨newId, a.id, 0, d, 0⟩], some newId) ∧
      addAudioToTimeline a newId aS =
        (aS ++ [⟨newId, a.id, 0, d, 0⟩], some newId)) := by
  constructor
  · intro h
    simp [addVideoToTimeline, addAudioToTimeline, h]
  · intro d h
    simp [addVideoToTimeline, addAudioToTimeline, h]

/-- C3: a pointer move during a drag rewrites, in both track stores, the
timelineStart of exactly the segment at the dragged id to
max 0 (initialTimelineStart + pixelDelta / 80), where initialOffset is
the timelineStart captured at mousedown, and returns every other
segment untouched. -/
theorem drag_moves_only_matching (ds : DragState) (clientX : ℚ)
    (vS aS : List Segment) (i : ℕ) (seg : Segment) :
    ((vS[i]? = some seg → seg.id = ds.id →
        (onMouseMove ds clientX vS aS).1[i]? =
          some { seg with timelineStart := dragSpec ds.initialOffset (clientX - ds.initialX) }) ∧
     (vS[i]? = some seg → seg.id ≠ ds.id →
        (onMouseMove ds clientX vS aS).1[i]? = some seg)) ∧
    ((aS[i]? = some seg → seg.id = ds.id →
        (onMouseMove ds clientX vS aS).2[i]? =
          some { seg with timelineStart := dragSpec ds.initialOffset (clientX - ds.initialX) }) ∧
     (aS[i]? = some seg → seg.id ≠ ds.id →
        (onMouseMove ds clientX vS aS).2[i]? = some seg)) := by
  refine ⟨⟨?_, ?_⟩, ?_, ?_⟩ <;> intro hmem hidc <;>
    simp [onMouseMove, List.getElem?_map, hmem, dragSegment, hidc,
      dragSpec, PIXELS_PER_SECOND]

/-- C3 witness: dragging id "d" by 80 pixels moves the matching video
segment from timelineStart 1 to 2 and leaves the audio segment with a
different id untouched. -/
theorem drag_moves_only_matching_witness :
    (onMouseMove ⟨"d", 0, 1⟩ 80 [⟨"d", "a", 0, 1, 1⟩] [⟨"e", "a", 0, 1, 3⟩]).1[0]? =
      some ⟨"d", "a", 0, 1, dragSpec 1 (80 - 0)⟩ ∧
    (onMouseMove ⟨"d", 0, 1⟩ 80 [⟨"d", "a", 0, 1, 1⟩] [⟨"e", "a", 0, 1, 3⟩]).2[0]? =
      some ⟨"e", "a", 0, 1, 3⟩ := by
  exact ⟨((drag_moves_only_matching ⟨"d", 0, 1⟩ 80 [⟨"d", "a", 0, 1, 1⟩]
      [⟨"e", "a", 0, 1, 3⟩] 0 ⟨"d", "a", 0, 1, 1⟩).1.1 rfl rfl),
    ((drag_moves_only_matching ⟨"d", 0, 1⟩ 80 [⟨"d", "a", 0, 1, 1⟩]
      [⟨"e", "a", 0, 1, 3⟩] 0 ⟨"e", "a", 0, 1, 3⟩).2.2 rfl (by simp))⟩

/-- Per-segment resize write never touches id, assetId or
timelineStart. -/
theorem resizeSegment_frame (rs : ResizeState) (assets : List Asset)
    (deltaSecs : ℚ) (seg : Segment) :
    (resizeSegment rs assets deltaSecs seg).id = seg.id ∧
    (resizeSegment rs assets deltaSecs seg).assetId = seg.assetId ∧
    (resizeSegment rs assets deltaSecs seg).timelineStart =
      seg.timelineStart := by
  by_cases h : seg.id ≠ rs.id <;> simp [resizeSegment, h]

/-- Per-segment resize write is the identity on segments whose id is
not the resized one. -/
theorem resizeSegment_of_ne (rs : ResizeState) (assets : List Asset)
    (deltaSecs : ℚ) (seg : Segment) (h : seg.id ≠ rs.id) :
    resizeSegment rs assets deltaSecs seg = seg := by
  simp [resizeSegment, h]

/-- C4: a resize write changes neither id, assetId nor timelineStart of
any segment on either track (position by position), and returns every
segment whose id differs from the resized one completely unchanged. -/
theorem resize_frame_effect (rs : ResizeState) (clientX : ℚ)
    (vA aA : List Asset) (vS aS : List Segment) :
    ((onResize rs clientX vA aA vS aS).1.map
        (fun s => (s.id, s.assetId, s.timelineStart)) =
      vS.map (fun s => (s.id, s.assetId, s.timelineStart)) ∧
     (onResize rs clientX vA aA vS aS).2.map
        (fun s => (s.id, s.assetId, s.timelineStart)) =
      aS.map (fun s => (s.id, s.assetId, s.timelineStart))) ∧
    ((∀ i : ℕ, ∀ seg : Segment, vS[i]? = some seg → seg.id ≠ rs.id →
        (onResize rs clientX vA aA vS aS).1[i]? = some seg) ∧
     (∀ i : ℕ, ∀ seg : Segment, aS[i]? = some seg → seg.id ≠ rs.id →
        (onResize rs clientX vA aA vS aS).2[i]? = some seg)) := by
  refine ⟨⟨?_, ?_⟩, ?_, ?_⟩
  · simp only [onResize, List.map_map]
    exact List.map_congr_left (fun seg _ => by
      obtain ⟨h1, h2, h3⟩ := resizeSegment_frame rs vA
        ((clientX - rs.initialX) / PIXELS_PER_SECOND) seg
      simp [Function.comp, h1, h2, h3])
  · simp only [onResize, List.map_map]
    exact List.map_congr_left (fun seg _ => by
      obtain ⟨h1, h2, h3⟩ := resizeSegment_frame rs aA
        ((clientX - rs.initialX) / PIXELS_PER_SECOND) seg
      simp [Function.comp, h1, h2, h3])
  · intro i seg hmem hne
    simp [onResize, List.getElem?_map, hmem, resizeSegment_of_ne _ _ _ _ hne]
  · intro i seg hmem hne
    simp [onResize, List.getElem?_map, hmem, resizeSegment_of_ne _ _ _ _ hne]

/-- C4 witness: resizing id "s1" leaves the video segment timelineStart
at 2 and returns the audio segment with id "s2" unchanged. -/
theorem resize_frame_effect_witness :
    (onResize ⟨"s1", Edge.right, 0, 0, 4⟩ 40 [] [] [⟨"s1", "a1", 0, 4, 2⟩]
        [⟨"s2", "a2", 0, 4, 3⟩]).1.map
      (fun s => (s.id, s.assetId, s.timelineStart)) =
      [("s1", "a1", (2 : ℚ))] ∧
    (onResize ⟨"s1", Edge.right, 0, 0, 4⟩ 40 [] [] [⟨"s1", "a1", 0, 4, 2⟩]
        [⟨"s2", "a2", 0, 4, 3⟩]).2[0]? = some ⟨"s2", "a2", 0, 4, 3⟩ := by
  exact ⟨(resize_frame_effect ⟨"s1", Edge.right, 0, 0, 4⟩ 40 [] []
      [⟨"s1", "a1", 0, 4, 2⟩] [⟨"s2", "a2", 0, 4, 3⟩]).1.1,
    (resize_frame_effect ⟨"s1", Edge.right, 0, 0, 4⟩ 40 [] []
      [⟨"s1", "a1", 0, 4, 2⟩] [⟨"s2", "a2", 0, 4, 3⟩]).2.2 0
      ⟨"s2", "a2", 0, 4, 3⟩ rfl (by simp)⟩

/-- Progress notification while Playing with a selected segment whose
end has been reached: the scheduler advances to the next segment in
timeline order when one exists, else stops and issues pause. -/
theorem onTimeUpdate_advance (st : PlayerState) (t : ℚ) (sel : Segment)
    (hsel : selectedVideoSegment st = some sel)
    (hplay : st.isPlaying = true)
    (ht : sel.sourceStart + sel.duration ≤ t) :
    onTimeUpdate st t =
      match getNextVideoSegment st with
      | some next => ({ st with selectedVideoSegmentId := some next.id }, false)
      | none => ({ st with isPlaying := false }, true) := by
  simp only [onTimeUpdate, hsel, hplay]
  simp [ht]

/-- C9: evaluation of the code at the failing input.  Contrary to the
first step of the claimed scenario, toggling playback with segments A
and B present but nothing selected is a no-op: with a null selection
the preview video element is unmounted (selectedVideoAsset is none), so
the media element guard at the top of togglePlayback returns at once —
no segment becomes selected, the scheduler stays Stopped, and the
select-first fallback written inside togglePlayback never runs. -/
theorem togglePlayback_noop_without_selection :
    selectedVideoAsset [⟨"v1", "clip", "u", some 12⟩]
      ⟨[⟨"A", "v1", 0, 3, 0⟩, ⟨"B", "v1", 10, 2, 5⟩], none, false⟩ = none ∧
    togglePlayback [⟨"v1", "clip", "u", some 12⟩]
      ⟨[⟨"A", "v1", 0, 3, 0⟩, ⟨"B", "v1", 10, 2, 5⟩], none, false⟩ =
      (⟨[⟨"A", "v1", 0, 3, 0⟩, ⟨"B", "v1", 10, 2, 5⟩], none, false⟩, false) :=
  ⟨rfl, rfl⟩

/-- Supporting fact for C9: once A is already selected (so the preview
element is mounted and the guard passes), the rest of the claimed chain
is exactly what the code does: toggling enters Playing keeping A
selected; a notification at A.sourceStart + 3 moves the selection to B;
a notification at B.sourceStart + 2 leaves Playing and issues pause,
next after B being null. -/
theorem playback_chain_after_selection :
    togglePlayback [⟨"v1", "clip", "u", some 12⟩]
      ⟨[⟨"A", "v1", 0, 3, 0⟩, ⟨"B", "v1", 10, 2, 5⟩], some "A", false⟩ =
      (⟨[⟨"A", "v1", 0, 3, 0⟩, ⟨"B", "v1", 10, 2, 5⟩], some "A", true⟩,
       false) ∧
    onTimeUpdate ⟨[⟨"A", "v1", 0, 3, 0⟩, ⟨"B", "v1", 10, 2, 5⟩],
        some "A", true⟩ 3 =
      (⟨[⟨"A", "v1", 0, 3, 0⟩, ⟨"B", "v1", 10, 2, 5⟩], some "B", true⟩,
       false) ∧
    onTimeUpdate ⟨[⟨"A", "v1", 0, 3, 0⟩, ⟨"B", "v1", 10, 2, 5⟩],
        some "B", true⟩ 12 =
      (⟨[⟨"A", "v1", 0, 3, 0⟩, ⟨"B", "v1", 10, 2, 5⟩], some "B", false⟩,
       true) := by
  refine ⟨rfl, ?_, ?_⟩
  · rw [onTimeUpdate_advance ⟨[⟨"A", "v1", 0, 3, 0⟩, ⟨"B", "v1", 10, 2, 5⟩],
      some "A", true⟩ 3 ⟨"A", "v1", 0, 3, 0⟩ rfl rfl (by norm_num)]
    rfl
  · rw [onTimeUpdate_advance ⟨[⟨"A", "v1", 0, 3, 0⟩, ⟨"B", "v1", 10, 2, 5⟩],
      some "B", true⟩ 12 ⟨"B", "v1", 10, 2, 5⟩ rfl rfl (by norm_num)]
    rfl

/-- C10 witness: evaluation at an asset without metadata and at one with
duration 12. -/
theorem add_uses_asset_duration_or_default_witness :
    addVideoToTimeline ⟨"a1", "clip", "u", none⟩ "s1" [] =
      ([⟨"s1", "a1", 0, 10, 0⟩], some "s1") ∧
    addVideoToTimeline ⟨"a1", "clip", "u", some 12⟩ "s1" [] =
      ([⟨"s1", "a1", 0, 12, 0⟩], some "s1") := by
  exact ⟨((add_uses_asset_duration_or_default ⟨"a1", "clip", "u", none⟩
      "s1" [] []).1 rfl).1,
    ((add_uses_asset_duration_or_default ⟨"a1", "clip", "u", some 12⟩
      "s1" [] []).2 12 rfl).1⟩
